import Mathlib

/-!
Verification development for the GraphQLGate rate-limiting middleware.

Part 1 embeds the query-complexity analyzer from
`src/analysis/ASTnodefunctions.ts` (functions `fieldNode`, `selectionNode`,
`selectionSetNode`, `definitionNode`, `documentNode`).
Part 2 models, from the specification, the weight-table multiplier rule and
the spec-level analyzer (the builder `buildTypeWeights.ts` and the entry
point `typeComplexityAnalysis.ts` are not part of the sources).
Part 3 embeds the per-client serializer and the response decision of the
express middleware from `src/middleware/index.ts`.

Costs are integers (TypeScript numbers used integrally by the source).
A TypeScript runtime error (indexing into `undefined`, or calling a value
that is not a function) is modelled by `Option.none`; every `none` in a
definition below is annotated with the line of the source that throws.
-/

namespace GraphQLGate

/-- GraphQL value nodes as far as the analyzer observes them: integer
literals, variable references, enum values and string literals. -/
inductive Value where
  | intVal (n : Int)
  | varRef (name : String)
  | enumVal (s : String)
  | strVal (s : String)
deriving DecidableEq

/-- One entry of `node.arguments` on a field node. -/
structure Argument where
  name : String
  value : Value
deriving DecidableEq

/-- The per-request vars mapping. Only integer-valued entries can
influence a cost, so the embedding restricts values to integers. -/
abbrev Variables : Type := List (String × Int)

/-- Association-list lookup, the embedding of JavaScript property access
`obj[key]` (and `key in obj` via `Option.isSome`). -/
def lookupAssoc {α : Type} (l : List (String × α)) (k : String) : Option α :=
  (l.find? (fun p => p.1 = k)).map (fun p => p.2)

/-- Embedding of `String.prototype.toLocaleLowerCase` for ASCII names. -/
def toLocaleLowerCase (s : String) : String :=
  String.mk (s.data.map Char.toLower)

/-- A field entry of the weight table, as `fieldNode` consumes it
(`typeWeights[parentName].fields[node.name.value]`):
a plain number (the `typeof fieldWeight === number` test at line 64),
a bare object reference without a callable weight, or a weight function
for a bounded list. The `resolveTo` component is recorded in the table
(see the table shape in `test/analysis/typeComplexityAnalysis.test.ts`)
but `ASTnodefunctions.ts` never reads it. -/
inductive FieldWeight where
  | num (w : Int)
  | ref (resolveTo : String)
  | fn (resolveTo : String) (f : List Argument → Option Int → Int)

/-- A type entry of the weight table: base weight plus field entries. -/
structure TypeWeight where
  weight : Int
  fields : List (String × FieldWeight)

/-- The weight table: lowercased type name to type entry. -/
abbrev TypeWeightObject : Type := List (String × TypeWeight)

/-!
A selection of a selection set. `node.selectionSet` being absent on a
leaf field and an empty selection set both contribute nothing in the
source (the guard `if (node.selectionSet)` versus an empty loop), so the
embedding uses the empty list for an absent selection set.
-/
mutual
inductive Selection where
  | field (name : String) (args : List Argument) (selectionSet : SelectionList)
  | fragmentSpread (name : String)
  | inlineFragment (selectionSet : SelectionList)
deriving DecidableEq
inductive SelectionList where
  | nil
  | cons (hd : Selection) (tl : SelectionList)
deriving DecidableEq
end

/-- Converts a plain list into a `SelectionList`. -/
def SelectionList.ofList : List Selection → SelectionList
  | [] => .nil
  | s :: rest => .cons s (SelectionList.ofList rest)

/-- The three operation kinds of `OperationTypeNode`; in `graphql-js`
these are exactly the lowercase strings produced by `toStr`. -/
inductive OperationType where
  | query
  | mutation
  | subscription
deriving DecidableEq

/-- The string `node.operation` carries at runtime. -/
def OperationType.toStr : OperationType → String
  | .query => "query"
  | .mutation => "mutation"
  | .subscription => "subscription"

/-- A definition of a document. Operation definitions carry the defaults
declared for their vars (ignored by the code embedding, read by the
spec model). Fragment definitions stand for every non-operation kind. -/
inductive Definition where
  | operation (op : OperationType) (varDefaults : List (String × Int))
      (selectionSet : SelectionList)
  | fragmentDefinition (name : String) (selectionSet : SelectionList)

/-!
Embedding of `ASTnodefunctions.ts`. The source `fieldNode` (lines 33-94)
is mutually recursive with `selectionSetNode` through the selection set of
the field; the equation compiler needs the structural descent through the
`Selection.field` constructor, so the body of the source `fieldNode` is
the `.field` case of `selectionNode` here, and `fieldNode` below applies
`selectionNode` to the corresponding field selection.
-/

mutual
/-- Lines 96-110 of `ASTnodefunctions.ts`: only `Kind.FIELD` is handled
(fragment spreads and inline fragments fall through with complexity 0);
the `.field` case is the body of the source `fieldNode` (lines 33-94). -/
def selectionNode (node : Selection) (typeWeights : TypeWeightObject)
    (vars : Variables) (parentName : String) : Option Int :=
  match node with
  | .field name args ss =>
    -- line 41: `node.name.value.toLocaleLowerCase() in typeWeights`
    if (lookupAssoc typeWeights (toLocaleLowerCase name)).isSome then
      -- line 44: `const { weight } = typeWeights[node.name.value]`
      -- indexes with the name as written, not the lowercased name
      match lookupAssoc typeWeights name with
      | none => none -- destructuring a property of `undefined` throws
      | some t =>
        -- lines 49-56: selection cost with the field name as context
        match selectionSetNode ss typeWeights vars name with
        | none => none
        | some selectionsCost =>
          -- line 59
          some (if selectionsCost ≤ 1 then selectionsCost + t.weight
                else selectionsCost * t.weight)
    else
      -- line 62: `typeWeights[parentName].fields[node.name.value]`
      match lookupAssoc typeWeights parentName with
      | none => none -- `.fields` on `undefined` throws
      | some parentType =>
        match lookupAssoc parentType.fields name with
        | some (.num w) => some w -- lines 64-68: scalar field
        | some (.fn _ f) =>
          -- lines 75-82: selection cost first, with `node.name.value`
          -- (the field name) as the parent-type context
          match selectionSetNode ss typeWeights vars name with
          | none => none
          | some selectionsCost =>
            -- lines 83-86: the weight function gets the argument list and
            -- `vars[node.name.value]`, the vars entry under the
            -- field name. `node.arguments` is always an array on parsed
            -- queries and an array is truthy, so the guard always passes.
            -- line 89
            some (if selectionsCost ≤ 1 then
                    selectionsCost + f args (lookupAssoc vars name)
                  else selectionsCost * f args (lookupAssoc vars name))
        | some (.ref _) => none -- line 85: calling a non-function throws
        | none => none -- line 84 BUG comment: `fieldWeight` undefined, throws
  | .fragmentSpread _ => some 0 -- line 108 TODO: not handled, contributes 0
  | .inlineFragment _ => some 0 -- line 108 TODO: not handled, contributes 0
termination_by structural node
/-- Lines 112-126 of `ASTnodefunctions.ts`: sum of the selections,
carrying the parent name through unchanged. -/
def selectionSetNode (node : SelectionList) (typeWeights : TypeWeightObject)
    (vars : Variables) (parentName : String) : Option Int :=
  match node with
  | .nil => some 0
  | .cons hd tl =>
    match selectionNode hd typeWeights vars parentName,
          selectionSetNode tl typeWeights vars parentName with
    | some a, some b => some (a + b)
    | _, _ => none
termination_by structural node
end

/-- Lines 33-94 of `ASTnodefunctions.ts`: the handler for a field node,
given the fields of the node (name, argument list, selection set). -/
def fieldNode (name : String) (args : List Argument) (ss : SelectionList)
    (typeWeights : TypeWeightObject) (vars : Variables)
    (parentName : String) : Option Int :=
  selectionNode (.field name args ss) typeWeights vars parentName

/-- Lines 128-155 of `ASTnodefunctions.ts`: an operation definition whose
kind is a key of the table contributes the root weight plus the cost of
its selection set with the operation kind as context; everything else
contributes 0. `node.operation` is one of the lowercase strings
`query`, `mutation`, `subscription`, so the lowercased membership test of
line 137 and the raw indexing of line 139 consult the same key. -/
def definitionNode (node : Definition) (typeWeights : TypeWeightObject)
    (vars : Variables) : Option Int :=
  match node with
  | .operation op _ ss =>
    match lookupAssoc typeWeights op.toStr with
    | none => some 0
    | some t =>
      match selectionSetNode ss typeWeights vars op.toStr with
      | none => none
      | some s => some (t.weight + s)
  | .fragmentDefinition _ _ => some 0 -- line 153 TODO: contributes 0

/-- Lines 157-169 of `ASTnodefunctions.ts`: sum over the definitions of
the document. This is the analyzer entry point (`analyze`). -/
def documentNode (defs : List Definition) (typeWeights : TypeWeightObject)
    (vars : Variables) : Option Int :=
  match defs with
  | [] => some 0
  | d :: rest =>
    match definitionNode d typeWeights vars,
          documentNode rest typeWeights vars with
    | some a, some b => some (a + b)
    | _, _ => none

/-!
Part 2: the spec-level model. `buildTypeWeights.ts` (the weight-table
builder that creates the multiplier rules) and `typeComplexityAnalysis.ts`
(the `getQueryTypeComplexity` entry point the tests call) are not among
the sources; the definitions below are modelled from the specification.
-/

/-- Modelled from the spec: a field descriptor of the weight table
(section 3 of the spec) - a scalar leaf weight, an object reference, or a
bounded list with its element type and multiplier rule. The rule takes
the argument list, the vars mapping (spec section 3 gives the rule
the whole mapping) and the defaults declared for the operation vars
(used by the resolution order of spec section 4.2). -/
inductive SpecFieldDescriptor where
  | leaf (weight : Int)
  | ref (resolveTo : String)
  | boundedList (resolveTo : String)
      (rule : List Argument → Variables → List (String × Int) → Int)

/-- Modelled from the spec: a type descriptor of the weight table. -/
structure SpecTypeDescriptor where
  weight : Int
  fields : List (String × SpecFieldDescriptor)

/-- Modelled from the spec: the weight table of section 3. -/
abbrev SpecWeightTable : Type := List (String × SpecTypeDescriptor)

/-- Modelled from the spec: the multiplier rule `buildTypeWeights.ts`
attaches to a bounded-list field (spec sections 4.1 and 4.2). The rule
captures the configured slicing-argument names, the schema-declared
default of the field and the configured fallback. Resolution: the value
of the slicing argument the AST references - a literal if constant, the
entry of the vars mapping under the variable name if present, else
the default declared for that variable, else the field default, else the
fallback; the field default also applies when the AST has no slicing
argument. -/
def mkMultiplierRule (slicingArgNames : List String) (fieldDefault : Option Int)
    (fallback : Int) (args : List Argument) (vars : Variables)
    (varDefaults : List (String × Int)) : Int :=
  match args.find? (fun a => slicingArgNames.contains a.name) with
  | some a =>
    match a.value with
    | .intVal n => n
    | .varRef v =>
      match lookupAssoc vars v with
      | some n => n
      | none =>
        match lookupAssoc varDefaults v with
        | some n => n
        | none => fieldDefault.getD fallback
    | _ => fieldDefault.getD fallback
  | none => fieldDefault.getD fallback

mutual
/-- Modelled from the spec: the field-selection cost of spec section 4.2
step 4. Case (a): the lowercased field name is a type key - weight of
that type, selection cost with that type as context, `s + w` when
`s <= 1` else `s * w`. Case (b): scalar leaf - the leaf weight. Case (c):
bounded list - multiplier from the rule, selection cost with the element
type (`resolveTo`) as context, `s + m` when `s <= 1` else `s * m`.
A plain object reference that is not a type key and a missing type or
field entry are structural errors (spec leaves them open; the source
throws). -/
def specSelectionCost (node : Selection) (table : SpecWeightTable)
    (vars : Variables) (varDefaults : List (String × Int))
    (parentName : String) : Option Int :=
  match node with
  | .field name args ss =>
    match lookupAssoc table (toLocaleLowerCase name) with
    | some t =>
      match specSelectionListCost ss table vars varDefaults
            (toLocaleLowerCase name) with
      | none => none
      | some s =>
        some (if s ≤ 1 then s + t.weight else s * t.weight)
    | none =>
      match lookupAssoc table parentName with
      | none => none
      | some parentType =>
        match lookupAssoc parentType.fields name with
        | some (.leaf w) => some w
        | some (.boundedList resolveTo rule) =>
          match specSelectionListCost ss table vars varDefaults
                resolveTo with
          | none => none
          | some s =>
            some (if s ≤ 1 then s + rule args vars varDefaults
                  else s * rule args vars varDefaults)
        | some (.ref _) => none
        | none => none
  | .fragmentSpread _ => some 0
  | .inlineFragment _ => some 0
termination_by structural node
/-- Modelled from the spec: selection sets sum their selections and are
transparent to the context (spec section 4.2 step 3). -/
def specSelectionListCost (node : SelectionList) (table : SpecWeightTable)
    (vars : Variables) (varDefaults : List (String × Int))
    (parentName : String) : Option Int :=
  match node with
  | .nil => some 0
  | .cons hd tl =>
    match specSelectionCost hd table vars varDefaults parentName,
          specSelectionListCost tl table vars varDefaults parentName with
    | some a, some b => some (a + b)
    | _, _ => none
termination_by structural node
end

/-- Modelled from the spec: an operation whose kind is a table key starts
with the root weight and adds its selection cost (spec section 4.2
step 2); other definitions contribute 0. -/
def specDefinitionCost (node : Definition) (table : SpecWeightTable)
    (vars : Variables) : Option Int :=
  match node with
  | .operation op varDefaults ss =>
    match lookupAssoc table op.toStr with
    | none => some 0
    | some t =>
      match specSelectionListCost ss table vars varDefaults op.toStr with
      | none => none
      | some s => some (t.weight + s)
  | .fragmentDefinition _ _ => some 0

/-- Modelled from the spec: the document cost is the sum over the
definitions (spec section 4.2 step 1). -/
def specDocumentCost (defs : List Definition) (table : SpecWeightTable)
    (vars : Variables) : Option Int :=
  match defs with
  | [] => some 0
  | d :: rest =>
    match specDefinitionCost d table vars,
          specDocumentCost rest table vars with
    | some a, some b => some (a + b)
    | _, _ => none

/-!
Part 3: the middleware of `src/middleware/index.ts`.
-/

/-- Line 105 of `src/middleware/index.ts`: the identifier the serializer
assigns to an admission call is the string concatenation of the request
timestamp and the token cost of the call. -/
def requestId (timestamp : Nat) (tokens : Nat) : String :=
  toString timestamp ++ toString tokens

/-!
The per-client serializer (`throttledProcess`, lines 99-121, and
`processRequestResolver`, lines 69-86) for a single client identity.
Its shared data are the request queue `requestQueue[userId]`, the
one-shot listeners registered on the `EventEmitter` by
`requestEvents.once(requestId, ...)`, and the set of calls whose
`rateLimiter.processRequest` round-trip is currently awaited. The
`completed` and `errored` lists record resolved and rejected calls in
order. One transition of the system is one synchronously executed block
of the event loop:
- `arrive id`: lines 104-120. The call pushes its `requestId`; if it is
  alone in the queue it starts the bucket call at once, otherwise it
  registers a one-shot listener under its `requestId`.
- `bucketDone id`: lines 76-82, a bucket call returning normally. The
  resolver drops the queue head, resolves the caller, and emits the new
  queue head, which fires every one-shot listener registered under that
  string; each fired listener starts its own bucket call.
- `bucketError id`: lines 83-85, a bucket call ending in a store error.
  The catch block only rejects: the queue, and the listeners, are left
  untouched.
-/

/-- State of the serializer for one client. -/
structure SerState where
  queue : List String
  listeners : List String
  inFlight : List String
  completed : List String
  errored : List String
deriving DecidableEq

/-- The empty serializer state (no queue entry for the client yet). -/
def initSerState : SerState := ⟨[], [], [], [], []⟩

/-- A scheduling event of the serializer. -/
inductive SerEvent where
  | arrive (id : String)
  | bucketDone (id : String)
  | bucketError (id : String)
deriving DecidableEq

/-- A completion event is only enabled for a call that is in flight. -/
def serEnabled (s : SerState) (e : SerEvent) : Bool :=
  match e with
  | .arrive _ => true
  | .bucketDone id => s.inFlight.contains id
  | .bucketError id => s.inFlight.contains id

/-- One transition of the serializer, following the source line by line. -/
def serStep (s : SerState) (e : SerEvent) : SerState :=
  match e with
  | .arrive id =>
    -- line 110: `requestQueue[userId].push(requestId)`
    let q := s.queue ++ [id]
    if q.length > 1 then
      -- line 114: `requestEvents.once(requestId, ...)`
      { s with queue := q, listeners := s.listeners ++ [id] }
    else
      -- line 118: `processRequestResolver(...)` starts the bucket call
      { s with queue := q, inFlight := s.inFlight ++ [id] }
  | .bucketDone id =>
    -- line 78: `requestQueue[userId] = requestQueue[userId].slice(1)`
    let q := s.queue.drop 1
    -- line 80: `resolve(response)`
    let completed := s.completed ++ [id]
    let inFlight := s.inFlight.erase id
    -- line 81: `requestEvents.emit(requestQueue[userId][0])` fires every
    -- one-shot listener registered under the new queue head
    match q.head? with
    | some h =>
      { queue := q
        listeners := s.listeners.filter (fun l => l ≠ h)
        inFlight := inFlight ++ s.listeners.filter (fun l => l = h)
        completed := completed
        errored := s.errored }
    | none =>
      -- emitting `undefined` fires nothing; line 82 deletes the entry
      { queue := q, listeners := s.listeners, inFlight := inFlight
        completed := completed, errored := s.errored }
  | .bucketError id =>
    -- lines 83-85: `catch (err) { reject(err) }` - nothing else happens
    { s with inFlight := s.inFlight.erase id, errored := s.errored ++ [id] }

/-- Runs a sequence of events. -/
def serRun (s : SerState) (es : List SerEvent) : SerState :=
  es.foldl serStep s

/-- True when every event of the sequence is enabled where it occurs. -/
def serRunEnabled : SerState → List SerEvent → Bool
  | _, [] => true
  | s, e :: es => serEnabled s e && serRunEnabled (serStep s e) es

/-- The value resolved by `rateLimiter.processRequest`
(see the uses at lines 160-165 and the spec section 3). -/
structure RateLimiterResponse where
  success : Bool
  tokens : Int
  retryAfterMs : Option Int

/-- The record the middleware attaches at `res.locals.graphqlGate`
(lines 157-163). Depth is left out: the source hardcodes `null`. -/
structure GateRecord where
  timestamp : Int
  complexity : Int
  tokens : Int
  success : Bool
deriving DecidableEq

/-- What the express handler does with a bucket response: answer itself
with a status code and response headers, or admit the request by calling
the next middleware. -/
inductive GateOutcome where
  | respond (status : Nat) (headers : List (String × String))
      (record : GateRecord)
  | callNext (record : GateRecord)
deriving DecidableEq

/-- Lines 157-174 of `src/middleware/index.ts`: the record is attached,
then a failed response outside dark mode is answered with status 429 -
the `Retry-After` header of line 170 is commented out in the source, so
the header list is empty - and every other case falls through to
`next()`. -/
def handleRateLimiterResponse (dark : Bool) (timestamp : Int)
    (complexity : Int) (r : RateLimiterResponse) : GateOutcome :=
  let record : GateRecord :=
    { timestamp := timestamp, complexity := complexity,
      tokens := r.tokens, success := r.success }
  if !r.success && !dark then .respond 429 [] record
  else .callNext record

/-!
Helper lemmas: non-negativity of the analyzer on tables whose weights and
multiplier results are non-negative.
-/

/-- A successful association-list lookup comes from a list entry. -/
theorem lookupAssoc_mem {α : Type} {l : List (String × α)} {k : String} {v : α}
    (h : lookupAssoc l k = some v) : (k, v) ∈ l := by
  unfold lookupAssoc at h
  cases hf : l.find? (fun p => p.1 = k) with
  | none => rw [hf] at h; cases h
  | some p =>
    rw [hf] at h
    simp only [Option.map_some'] at h
    have hp := List.find?_some hf
    have hmem := List.mem_of_find?_eq_some hf
    simp only [decide_eq_true_eq] at hp
    cases p with
    | mk a b => cases h; cases hp; exact hmem

/-- Non-negativity of one field entry: a non-negative scalar weight, or a
weight function with non-negative results. -/
def NonNegFieldWeight : FieldWeight → Prop
  | .num w => 0 ≤ w
  | .ref _ => True
  | .fn _ f => ∀ (args : List Argument) (v : Option Int), 0 ≤ f args v

/-- All type weights of the table are non-negative and every field entry
satisfies `NonNegFieldWeight`. -/
def NonNegTable (typeWeights : TypeWeightObject) : Prop :=
  ∀ p ∈ typeWeights,
    0 ≤ p.2.weight ∧ ∀ q ∈ p.2.fields, NonNegFieldWeight q.2

mutual
theorem selectionNode_nonneg (node : Selection) (typeWeights : TypeWeightObject)
    (vars : Variables) (parentName : String) (hnn : NonNegTable typeWeights)
    (c : Int) (h : selectionNode node typeWeights vars parentName = some c) :
    0 ≤ c := by
  cases node with
  | field name args ss =>
    rw [selectionNode] at h
    split at h
    · -- the lowercased field name is a table key
      split at h
      · simp at h
      · rename_i t hl
        split at h
        · simp at h
        · rename_i s hss
          have hs := selectionSetNode_nonneg ss typeWeights vars name hnn s hss
          have hw : 0 ≤ t.weight := (hnn _ (lookupAssoc_mem hl)).1
          simp only [Option.some.injEq] at h
          subst h
          split
          · exact add_nonneg hs hw
          · exact mul_nonneg hs hw
    · -- scalar field or list field through the parent entry
      split at h
      · simp at h
      · rename_i parentType hl
        split at h
        · rename_i w hf
          have hfw : NonNegFieldWeight (.num w) :=
            (hnn _ (lookupAssoc_mem hl)).2 _ (lookupAssoc_mem hf)
          simp only [Option.some.injEq] at h
          subst h
          exact hfw
        · rename_i r f hf
          split at h
          · simp at h
          · rename_i s hss
            have hs := selectionSetNode_nonneg ss typeWeights vars name hnn s hss
            have hfw : NonNegFieldWeight (.fn r f) :=
              (hnn _ (lookupAssoc_mem hl)).2 _ (lookupAssoc_mem hf)
            have hm : 0 ≤ f args (lookupAssoc vars name) := hfw args _
            simp only [Option.some.injEq] at h
            subst h
            split
            · exact add_nonneg hs hm
            · exact mul_nonneg hs hm
        · simp at h
        · simp at h
  | fragmentSpread n =>
    rw [selectionNode] at h
    simp only [Option.some.injEq] at h
    omega
  | inlineFragment ss =>
    rw [selectionNode] at h
    simp only [Option.some.injEq] at h
    omega
termination_by structural node
theorem selectionSetNode_nonneg (node : SelectionList)
    (typeWeights : TypeWeightObject) (vars : Variables) (parentName : String)
    (hnn : NonNegTable typeWeights) (c : Int)
    (h : selectionSetNode node typeWeights vars parentName = some c) :
    0 ≤ c := by
  cases node with
  | nil =>
    rw [selectionSetNode] at h
    simp only [Option.some.injEq] at h
    omega
  | cons hd tl =>
    rw [selectionSetNode] at h
    cases h1 : selectionNode hd typeWeights vars parentName with
    | none => rw [h1] at h; cases h
    | some a =>
      cases h2 : selectionSetNode tl typeWeights vars parentName with
      | none => rw [h1, h2] at h; cases h
      | some b =>
        rw [h1, h2] at h
        have ha := selectionNode_nonneg hd typeWeights vars parentName hnn a h1
        have hb := selectionSetNode_nonneg tl typeWeights vars parentName hnn b h2
        simp only [Option.some.injEq] at h
        omega
termination_by structural node
end

theorem definitionNode_nonneg (node : Definition)
    (typeWeights : TypeWeightObject) (vars : Variables)
    (hnn : NonNegTable typeWeights) (c : Int)
    (h : definitionNode node typeWeights vars = some c) : 0 ≤ c := by
  cases node with
  | operation op vd ss =>
    rw [definitionNode] at h
    cases hl : lookupAssoc typeWeights op.toStr with
    | none => rw [hl] at h; simp only [Option.some.injEq] at h; omega
    | some t =>
      rw [hl] at h
      cases hss : selectionSetNode ss typeWeights vars op.toStr with
      | none => rw [hss] at h; cases h
      | some s =>
        rw [hss] at h
        have hs := selectionSetNode_nonneg ss typeWeights vars op.toStr hnn s hss
        have hw : 0 ≤ t.weight := (hnn _ (lookupAssoc_mem hl)).1
        simp only [Option.some.injEq] at h
        omega
  | fragmentDefinition n ss =>
    rw [definitionNode] at h
    simp only [Option.some.injEq] at h
    omega

/-!
Concrete data: the nested-list scenario of
`test/analysis/typeComplexityAnalysis.test.ts` (lines 337-343) and the
variable scenario of `test/analysis/weightFunction.test.ts`.
-/

/-- A concrete weight function reading a literal `first` argument, as the
builder would attach to `friends(first: Int): [Character]`. Its behavior
is immaterial below: `fieldNode` throws before invoking it. -/
def firstArgValue : List Argument → Option Int → Int := fun args _ =>
  match args.find? (fun a => a.name = "first") with
  | some a =>
    match a.value with
    | .intVal n => n
    | _ => 0
  | none => 0

/-- The slice of the analyzer-test weight table that the nested-list query
touches, in the shape `ASTnodefunctions.ts` consumes: root query weight 1,
object weight 1, scalar weight 0, `friends` a bounded list of characters. -/
def nestedTable : TypeWeightObject :=
  [("query", ⟨1, [("human", .ref "human")]⟩),
   ("human", ⟨1, [("name", .num 0), ("friends", .fn "character" firstArgValue)]⟩),
   ("character", ⟨1, [("name", .num 0), ("friends", .fn "character" firstArgValue)]⟩)]

/-- The selection `name` (a leaf field without selection set). -/
def nameField : Selection := .field "name" [] .nil

/-- The selection `friends(first: 3) of name`. -/
def friends3 : Selection :=
  .field "friends" [⟨"first", .intVal 3⟩] (.ofList [nameField])

/-- The selection `friends(first: 5) of name and friends(first: 3)`. -/
def friends5 : Selection :=
  .field "friends" [⟨"first", .intVal 5⟩] (.ofList [nameField, friends3])

/-- The document of the nested-list test query
`query of human(id: 1) of name and friends(first: 5) of ...`. -/
def nestedQuery : List Definition :=
  [.operation .query []
    (.ofList [.field "human" [⟨"id", .intVal 1⟩] (.ofList [nameField, friends5])])]

/-- The spec-level counterpart of `nestedTable`, with the multiplier rule
modelled from the spec. -/
def specNestedTable : SpecWeightTable :=
  [("query", ⟨1, [("human", .ref "human")]⟩),
   ("human", ⟨1, [("name", .leaf 0),
     ("friends", .boundedList "character" (mkMultiplierRule ["first", "last", "limit"] none 0))]⟩),
   ("character", ⟨1, [("name", .leaf 0),
     ("friends", .boundedList "character" (mkMultiplierRule ["first", "last", "limit"] none 0))]⟩)]

/-- Arguments of `heroes(episode: NEWHOPE, first: items-variable)`. -/
def heroesArgs : List Argument :=
  [⟨"episode", .enumVal "NEWHOPE"⟩, ⟨"first", .varRef "items"⟩]

/-- The document of the variable test query
`query (items variable) of heroes(episode: NEWHOPE, first: items-variable)
of stars and episode`; the operation declares no variable defaults. -/
def heroesQuery : List Definition :=
  [.operation .query []
    (.ofList [.field "heroes" heroesArgs
      (.ofList [.field "stars" [] .nil, .field "episode" [] .nil])])]

/-- The variables mapping of the scenario: `items` is 7 and an unrelated
entry named `first` is 4. -/
def heroesVars : Variables := [("items", 7), ("first", 4)]

/-- Modelled from the spec: the weight table for the `weightFunction`
test schema slice - `heroes(episode, first): [Review]` has no schema
default for `first`, reviews weigh 1 with scalar fields. -/
def specHeroesTable : SpecWeightTable :=
  [("query", ⟨1, [("heroes",
      .boundedList "review" (mkMultiplierRule ["first", "last", "limit"] none 0))]⟩),
   ("review", ⟨1, [("stars", .leaf 0), ("episode", .leaf 0)]⟩)]

/-- A table with entries `query` and `human` and no fields, used for the
case-sensitivity counterexample. -/
def caseTable : TypeWeightObject :=
  [("query", ⟨1, []⟩), ("human", ⟨2, []⟩)]

/-- A table with only the root `query` entry of weight 1. -/
def simpleTable : TypeWeightObject := [("query", ⟨1, []⟩)]

/-- The document of `query with empty selection set`. -/
def simpleQuery : List Definition := [.operation .query [] .nil]

/-!
The claims.
-/

/-- Claim C1: the claim states that a bounded-list field contributes
`s + m` when `s <= 1` else `s * m` with `s` the cost of its selection set
evaluated with the element type name (the `resolveTo` target) as the
parent-type context. The code instead passes the field name
(`node.name.value`) as the context (line 80 of `ASTnodefunctions.ts`), so
on the nested-list field `friends(first: 3) of name` with parent `human`
the walker looks up the type entry `friends`, which does not exist, and
throws - while the spec-level cost with the `resolveTo` context is 3, the
value the repository test suite expects for this subtree. -/
theorem fieldNode_list_context_bug :
    fieldNode "friends" [⟨"first", .intVal 3⟩] (.ofList [nameField])
      nestedTable [] "human" = none
    ∧ specSelectionCost (.field "friends" [⟨"first", .intVal 3⟩]
        (.ofList [nameField])) specNestedTable [] [] "human" = some 3 := by
  constructor
  · decide
  · decide

/-- Claim C2: the claim states that the nested-list test query evaluates
to 22 against the test weight table. The walker of
`ASTnodefunctions.ts` throws on this query (it evaluates the inner
selections under the type name `friends`, which is not a table key), so
the analyzer returns no value at all; the repository test
(`typeComplexityAnalysis.test.ts` lines 337-343) expects 22. -/
theorem documentNode_nested_query_bug :
    documentNode nestedQuery nestedTable [] = none := by decide

/-- Claim C3 (spec-modelled): the multiplier rule resolves a slicing
argument given as a variable reference to the variables entry under the
variable name when present; a slicing argument given as a literal is
immune to every variables entry; and the heroes scenario with variables
`items` 7 and an unrelated `first` 4 has complexity 8. -/
theorem multiplier_variable_resolution :
    (∀ (slicing : List String) (fd : Option Int) (fb : Int)
       (args : List Argument) (vars : Variables) (vds : List (String × Int))
       (a : Argument) (v : String) (n : Int),
       args.find? (fun x => slicing.contains x.name) = some a →
       a.value = .varRef v →
       lookupAssoc vars v = some n →
       mkMultiplierRule slicing fd fb args vars vds = n)
    ∧ (∀ (slicing : List String) (fd : Option Int) (fb : Int)
       (args : List Argument) (vars : Variables) (vds : List (String × Int))
       (a : Argument) (k : Int),
       args.find? (fun x => slicing.contains x.name) = some a →
       a.value = .intVal k →
       mkMultiplierRule slicing fd fb args vars vds = k)
    ∧ specDocumentCost heroesQuery specHeroesTable heroesVars = some 8 := by
  refine ⟨?_, ?_, by decide⟩
  · intro slicing fd fb args vars vds a v n hfind hval hlook
    unfold mkMultiplierRule
    split
    · rename_i a2 heq
      rw [hfind] at heq
      injection heq with heq
      subst heq
      rw [hval]
      simp only [hlook]
    · rename_i heq
      rw [hfind] at heq
      simp at heq
  · intro slicing fd fb args vars vds a k hfind hval
    unfold mkMultiplierRule
    split
    · rename_i a2 heq
      rw [hfind] at heq
      injection heq with heq
      subst heq
      rw [hval]
    · rename_i heq
      rw [hfind] at heq
      simp at heq

/-- Claim C3 witness: the heroes argument list against the scenario
variables yields 7 through the `items` variable, and a literal slicing
argument yields its literal even when the variables mapping carries an
entry named `first`. -/
theorem multiplier_variable_resolution_witness :
    mkMultiplierRule ["first", "last", "limit"] none 0 heroesArgs heroesVars [] = 7
    ∧ mkMultiplierRule ["first", "last", "limit"] none 0
        [⟨"first", .intVal 3⟩] [("first", 7)] [] = 3 :=
  ⟨multiplier_variable_resolution.1 ["first", "last", "limit"] none 0
     heroesArgs heroesVars [] ⟨"first", .varRef "items"⟩ "items" 7
     (by decide) rfl (by decide),
   multiplier_variable_resolution.2.1 ["first", "last", "limit"] none 0
     [⟨"first", .intVal 3⟩] [("first", 7)] [] ⟨"first", .intVal 3⟩ 3
     (by decide) rfl⟩

/-- Claim C4 counterexample: the claim predicts, for a field selection
whose lowercased name is a table key, the contribution `s + w` with `w`
the weight of that entry - here the field `Human` with empty selection
set against a table keyed `human` of weight 2, hence 2. The walker
instead indexes the table with the name as written (line 44) after the
lowercased membership test (line 41), finds nothing, and throws. -/
theorem fieldNode_case_mismatch_cex :
    fieldNode "Human" [] .nil caseTable [] "query" ≠ some 2 := by decide

/-- Claim C4 (amended): for a field selection whose name as written is a
table key and is already lowercase (so that the lowercased membership
test of line 41 and the raw indexing of line 44 agree), the contribution
is `s + w` when `s <= 1` else `s * w`, where `w` is the weight of that
entry and `s` the cost of the selection set with the field name as
context. -/
theorem fieldNode_type_key_contribution (name : String) (args : List Argument)
    (ss : SelectionList) (typeWeights : TypeWeightObject) (vars : Variables)
    (parentName : String) (t : TypeWeight)
    (hlower : toLocaleLowerCase name = name)
    (hname : lookupAssoc typeWeights name = some t) :
    fieldNode name args ss typeWeights vars parentName =
      match selectionSetNode ss typeWeights vars name with
      | none => none
      | some s => some (if s ≤ 1 then s + t.weight else s * t.weight) := by
  rw [fieldNode, selectionNode, hlower, hname]
  simp

/-- Claim C4 witness: the amended statement evaluated at the lowercase
field `human` with empty selection set against `caseTable`. -/
theorem fieldNode_type_key_contribution_witness :
    fieldNode "human" [] .nil caseTable [] "query" =
      match selectionSetNode .nil caseTable [] "human" with
      | none => none
      | some s => some (if s ≤ 1 then s + (2 : Int) else s * 2) :=
  fieldNode_type_key_contribution "human" [] .nil caseTable [] "query"
    ⟨2, []⟩ rfl rfl

/-- Claim C5: on a weight table whose type weights, scalar field weights
and weight-function results are all non-negative, every value the
analyzer entry point returns is non-negative, for every document and
variables mapping. -/
theorem analyze_nonneg (defs : List Definition) (typeWeights : TypeWeightObject)
    (vars : Variables) (hnn : NonNegTable typeWeights) (c : Int)
    (h : documentNode defs typeWeights vars = some c) : 0 ≤ c := by
  induction defs generalizing c with
  | nil =>
    rw [documentNode] at h
    simp only [Option.some.injEq] at h
    omega
  | cons d rest ih =>
    rw [documentNode] at h
    cases h1 : definitionNode d typeWeights vars with
    | none => rw [h1] at h; simp at h
    | some a =>
      cases h2 : documentNode rest typeWeights vars with
      | none => rw [h1, h2] at h; simp at h
      | some b =>
        rw [h1, h2] at h
        have ha := definitionNode_nonneg d typeWeights vars hnn a h1
        have hb := ih b h2
        simp only [Option.some.injEq] at h
        omega

/-- Claim C5 witness: the empty query against the one-entry table
evaluates to 1, and the theorem yields its non-negativity. -/
theorem analyze_nonneg_witness :
    documentNode simpleQuery simpleTable [] = some 1 ∧ (0 : Int) ≤ 1 :=
  ⟨by decide,
   analyze_nonneg simpleQuery simpleTable []
     (fun p hp => by
       simp only [simpleTable, List.mem_singleton] at hp
       subst hp
       exact ⟨by norm_num, fun q hq => absurd hq (List.not_mem_nil q)⟩)
     1 (by decide)⟩

/-- Claim C6: the claim states that admissions of one client complete in
arrival order with at most one bucket call in flight, for every
interleaving. The call identifier of line 105 is the concatenation of
timestamp and cost, so two calls in the same millisecond with equal cost
get the same identifier; after a head call completes, the single emit of
line 81 fires the one-shot listeners of both waiting calls at once and
both bucket calls run concurrently: the run below ends with two calls in
flight for one client. -/
theorem serializer_two_inflight :
    serRunEnabled initSerState
      [.arrive (requestId 7 1), .arrive (requestId 7 2), .arrive (requestId 7 2),
       .bucketDone (requestId 7 1)] = true
    ∧ (serRun initSerState
        [.arrive (requestId 7 1), .arrive (requestId 7 2), .arrive (requestId 7 2),
         .bucketDone (requestId 7 1)]).inFlight
      = [requestId 7 2, requestId 7 2] := by decide

/-- Claim C7: the claim states that when the bucket call for the queue
head fails, the serializer still removes the head entry and wakes the
next token. In the source the catch block of lines 83-85 only rejects:
after the run below, the head is still in the queue, the next call is
still registered as a listener, and nothing is in flight - no future
event of the system can ever fire that listener, so the later call is
blocked for good. -/
theorem serializer_error_blocks_queue :
    serRunEnabled initSerState
      [.arrive (requestId 5 3), .arrive (requestId 6 4),
       .bucketError (requestId 5 3)] = true
    ∧ serRun initSerState
        [.arrive (requestId 5 3), .arrive (requestId 6 4),
         .bucketError (requestId 5 3)]
      = ⟨[requestId 5 3, requestId 6 4], [requestId 6 4], [], [],
         [requestId 5 3]⟩ := by decide

/-- Claim C8: the claim states every admission call gets a token unique
to the call. The token of line 105 is a pure function of timestamp and
cost: two calls with the same timestamp and cost collide trivially, and
even calls with different timestamps and costs collide, as the
concatenations of 1 with 23 and of 12 with 3 both give the string 123. -/
theorem requestId_collision :
    requestId 1 23 = requestId 12 3
    ∧ ((1, 23) : Nat × Nat) ≠ (12, 3)
    ∧ requestId 1 23 = "123" := by decide

/-- Claim C9: the claim states a rejection outside dark mode is answered
with status 429 and a Retry-After header derived from the bucket
response. The source answers 429 but the header line is commented out
(line 170, with a FIXME), so the header list is empty even though the
bucket response carries a retry hint; in dark mode the rejection is
admitted with a record carrying success false, as claimed. -/
theorem middleware_429_without_retry_after :
    handleRateLimiterResponse false 100 5 ⟨false, 0, some 2000⟩
      = .respond 429 [] ⟨100, 5, 0, false⟩
    ∧ handleRateLimiterResponse true 100 5 ⟨false, 0, some 2000⟩
      = .callNext ⟨100, 5, 0, false⟩ := by decide

/-- Claim C10: fragment spreads and inline fragments, non-operation
definitions, and operation definitions whose kind is not a table key all
contribute exactly 0 and raise no error, for every table and variables
mapping. -/
theorem zero_for_unhandled_nodes :
    (∀ (n : String) (typeWeights : TypeWeightObject) (vars : Variables)
       (parentName : String),
       selectionNode (.fragmentSpread n) typeWeights vars parentName = some 0)
    ∧ (∀ (ss : SelectionList) (typeWeights : TypeWeightObject)
       (vars : Variables) (parentName : String),
       selectionNode (.inlineFragment ss) typeWeights vars parentName = some 0)
    ∧ (∀ (n : String) (ss : SelectionList) (typeWeights : TypeWeightObject)
       (vars : Variables),
       definitionNode (.fragmentDefinition n ss) typeWeights vars = some 0)
    ∧ (∀ (op : OperationType) (vd : List (String × Int)) (ss : SelectionList)
       (typeWeights : TypeWeightObject) (vars : Variables),
       lookupAssoc typeWeights op.toStr = none →
       definitionNode (.operation op vd ss) typeWeights vars = some 0) := by
  refine ⟨fun n tw vars p => ?_, fun ss tw vars p => ?_,
    fun n ss tw vars => ?_, fun op vd ss tw vars hl => ?_⟩
  · rw [selectionNode]
  · rw [selectionNode]
  · rw [definitionNode]
  · rw [definitionNode, hl]

/-- Claim C10 witness: a fragment spread under the root, and a mutation
operation against a table without a mutation key, both cost 0. -/
theorem zero_for_unhandled_nodes_witness :
    selectionNode (.fragmentSpread "comparisonFields") simpleTable [] "query"
      = some 0
    ∧ definitionNode (.operation .mutation [] .nil) simpleTable [] = some 0 :=
  ⟨zero_for_unhandled_nodes.1 "comparisonFields" simpleTable [] "query",
   zero_for_unhandled_nodes.2.2.2 .mutation [] .nil simpleTable [] rfl⟩

end GraphQLGate
